import Mathlib

/-
Verification development for git-branchstat (src/main.rs).

The program runs git subprocesses and reduces their stdout to a one-line
status summary.  We embed the pure text-processing core shallowly:

* a backend invocation `command_output(dir, args)` is modelled by an
  `Oracle : Query -> Except String (List Str)` giving, for each of the four
  fixed argument lists used by the extractors, either an ExecutionError
  (spawn failure / non-UTF8 output) or the list of stdout lines;
* text is `Str := List Char`; the Rust string operations used by the code
  (`trim`, `trim_start`, `trim_matches`, `split(' ')`, `contains`,
  `join`, `collect::<String>()`, `format!` padding) are defined below,
  character by character;
* Rust panics (`unwrap` on `None`, out-of-bounds indexing) are made explicit
  through the result type `RunRes`, so partiality claims are statable;
* a directory path is its list of components (canonicalized, so the final
  component of `p.file_name()` is the last entry; the filesystem root has
  none).

`branchstatRun` additionally records the sequence of backend queries issued,
mirroring the source's evaluation order (the `vec![a?, b?, c?, d?]`
expression evaluates its elements left to right and `?` short-circuits;
the `par_iter` runs only over the four already-computed results).
-/

set_option autoImplicit false

namespace Branchstat

abbrev Str := List Char

/-- The apostrophe character stripped by `trim_matches` in `ahead_behind`. -/
def quoteChar : Char := Char.ofNat 39

/-- Rust `str::trim_start` (leading whitespace removed). -/
def trimStartL (s : Str) : Str := s.dropWhile Char.isWhitespace

/-- Rust `str::trim` (leading and trailing whitespace removed). -/
def trimL (s : Str) : Str :=
  ((s.dropWhile Char.isWhitespace).reverse.dropWhile Char.isWhitespace).reverse

/-- Rust `str::trim_matches(c)`: strip all leading and trailing copies of `c`. -/
def trimMatchesL (c : Char) (s : Str) : Str :=
  ((s.dropWhile (fun x => x = c)).reverse.dropWhile (fun x => x = c)).reverse

/-- Rust `str::split(c)` for a single separator char: the pieces between
occurrences of `c`.  Always yields at least one piece (`[""]` for `""`). -/
def splitCharL (c : Char) : Str → List Str
  | [] => [[]]
  | x :: xs =>
    if x = c then [] :: splitCharL c xs
    else
      match splitCharL c xs with
      | [] => [[x]]
      | h :: t => (x :: h) :: t

/-- Does `pat` occur at the start of `s`? -/
def startsWithL : Str → Str → Bool
  | [], _ => true
  | _ :: _, [] => false
  | a :: as, b :: bs => a = b && startsWithL as bs

/-- Rust `str::contains(pat)`: substring occurrence. -/
def containsSub (pat : Str) : Str → Bool
  | [] => pat.isEmpty
  | c :: cs => startsWithL pat (c :: cs) || containsSub pat cs

/-- Rust `Vec<String>::join(sep)`. -/
def joinSep (sep : Str) : List Str → Str
  | [] => []
  | [x] => x
  | x :: y :: rest => x ++ sep ++ joinSep sep (y :: rest)

/-- Rust `collect::<String>()`: concatenation with no separator. -/
def concatAll : List Str → Str
  | [] => []
  | x :: xs => x ++ concatAll xs

/-- Decimal rendering of a count, as produced by `format!("{}", n)`. -/
def natToStr (n : Nat) : Str := Nat.toDigits 10 n

/-- Rust `format!("{:20}", s)`: left-aligned, padded on the right with
spaces up to a minimum width of 20; longer strings are not truncated. -/
def padTo20 (s : Str) : Str := s ++ List.replicate (20 - s.length) ' '

/-- The four fixed backend queries issued by the extractors, in the order the
source's `branchstat` invokes them. -/
inductive Query where
  | forEachRef
  | diffShortstat
  | diffCached
  | lsFilesOthers
deriving DecidableEq

/-- One backend invocation: ExecutionError or the captured stdout lines. -/
abbrev Oracle := Query → Except String (List Str)

/-- Outcome of running a piece of the program: a Rust panic, a propagated
`anyhow` error, or a normal return value. -/
inductive RunRes (α : Type) where
  | panicked
  | error (e : String)
  | ok (v : α)
deriving DecidableEq

/-- A canonicalized directory path, as its list of components.  `[]` is the
filesystem root. -/
abbrev GPath := List Str

/-- Rust `Path::file_name()` on a canonicalized path: the last component, or
`none` at the root. -/
def fileName (p : GPath) : Option Str := p.getLast?

/-- The two-character suffix appended by `modified`.  The source literal at
line 85 of main.rs holds the bytes C3 82 C2 B1, i.e. the characters
U+00C2 U+00B1 (a mojibake rendering of a plus-minus sign). -/
def pmSuffix : Str := [Char.ofNat 0xC2, Char.ofNat 0xB1]

/-- The newline character used by `join("\n")`. -/
def nlSep : Str := [Char.ofNat 10]

/-- Extractor `ahead_behind` (main.rs lines 58-79): per line, strip surrounding
apostrophes then trim; keep lines whose split-on-space has a second element;
concatenate what is kept; `None` when the concatenation is empty. -/
def ahead_behind (o : Oracle) : RunRes (Option Str) :=
  match o Query.forEachRef with
  | .error e => .error e
  | .ok lines =>
    if (concatAll ((lines.map (fun x => trimL (trimMatchesL quoteChar x))).filter
          (fun x => ((splitCharL ' ' x).get? 1).isSome))).isEmpty
    then .ok none
    else .ok (some (concatAll ((lines.map (fun x => trimL (trimMatchesL quoteChar x))).filter
          (fun x => ((splitCharL ' ' x).get? 1).isSome))))

/-- Extractor `modified` (main.rs lines 81-89): join the lines with a newline; if the
text contains "changed", take element 0 of the split-on-space of the
`trim_start`ed text (a panic if that indexing were out of bounds) and append
`pmSuffix`; else `None`. -/
def modified (o : Oracle) : RunRes (Option Str) :=
  match o Query.diffShortstat with
  | .error e => .error e
  | .ok ls =>
    if containsSub ("changed".data) (joinSep nlSep ls) then
      match splitCharL ' ' (trimStartL (joinSep nlSep ls)) with
      | [] => .panicked
      | num :: _ => .ok (some (num ++ pmSuffix))
    else .ok none

/-- Extractor `status` (main.rs lines 91-98): `Some ("Staged <line count>")` when any
lines were returned, else `None`. -/
def status (o : Oracle) : RunRes (Option Str) :=
  match o Query.diffCached with
  | .error e => .error e
  | .ok response =>
    if response.isEmpty then .ok none
    else .ok (some ("Staged ".data ++ natToStr response.length))

/-- Extractor `untracked` (main.rs lines 100-107): `Some ("<line count>?")` when any
lines were returned, else `None`. -/
def untracked (o : Oracle) : RunRes (Option Str) :=
  match o Query.lsFilesOthers with
  | .error e => .error e
  | .ok ls =>
    if ls.isEmpty then .ok none
    else .ok (some (natToStr ls.length ++ "?".data))

def commaSep : Str := ", ".data

def barSep : Str := " | ".data

/-- The tail of `branchstat` after the four extractor values are in hand
(main.rs lines 39-55): filter out `None`, join with ", ", return `None` on an
empty joined string, else prepend the padded `file_name` label (an `unwrap`,
hence a panic when the path has no final component). -/
def aggregateTail (p : GPath) (a b c d : Option Str) : RunRes (Option Str) :=
  if (joinSep commaSep ([a, b, c, d].filterMap id)).isEmpty then .ok none
  else
    match fileName p with
    | none => .panicked
    | some name =>
      .ok (some (padTo20 name ++ barSep ++ joinSep commaSep ([a, b, c, d].filterMap id)))

def allQueries : List Query :=
  [Query.forEachRef, Query.diffShortstat, Query.diffCached, Query.lsFilesOthers]

/-- Aggregator `branchstat` (main.rs lines 38-56) together with the trace of backend
queries it issues.  `vec![ahead_behind(p)?, modified(p)?, status(p)?,
untracked(p)?]` evaluates the four calls left to right, short-circuiting on
the first error; the `par_iter` only filters/joins the four computed values
(rayon's collect preserves order). -/
def branchstatRun (p : GPath) (o : Oracle) : RunRes (Option Str) × List Query :=
  match ahead_behind o with
  | .panicked => (.panicked, [Query.forEachRef])
  | .error e => (.error e, [Query.forEachRef])
  | .ok a =>
    match modified o with
    | .panicked => (.panicked, [Query.forEachRef, Query.diffShortstat])
    | .error e => (.error e, [Query.forEachRef, Query.diffShortstat])
    | .ok b =>
      match status o with
      | .panicked => (.panicked, [Query.forEachRef, Query.diffShortstat, Query.diffCached])
      | .error e => (.error e, [Query.forEachRef, Query.diffShortstat, Query.diffCached])
      | .ok c =>
        match untracked o with
        | .panicked => (.panicked, allQueries)
        | .error e => (.error e, allQueries)
        | .ok d => (aggregateTail p a b c d, allQueries)

/-- The value returned by `branchstat`. -/
def branchstat (p : GPath) (o : Oracle) : RunRes (Option Str) := (branchstatRun p o).1

/-- Probe `is_git_repo` (main.rs lines 129-139): only exit code 128 of the probe
process means "not a repository". -/
def is_git_repo (code : Option Int) : Bool :=
  match code with
  | some 128 => false
  | _ => true

/-- The validity-check branch of `main` (main.rs lines 16-19): when
`is_git_repo` is false, print the fixed diagnostic and exit 1; otherwise
proceed (no output from this step). -/
def entryRepoCheck (code : Option Int) : Option (String × Nat) :=
  if is_git_repo code then none else some ("Not a git repo.", 1)

/-- The reporting branch of `main` (main.rs lines 20-24): the printed lines
and the exit code, as a function of the `branchstat` outcome.  `if let
Ok(Some(status))` prints on exactly that pattern; an `Err` (or `Ok(None)`)
prints nothing and `main` returns normally (exit 0).  A panic inside
`branchstat` aborts the process instead. -/
def mainReport : RunRes (Option Str) → RunRes (List Str × Nat)
  | .panicked => .panicked
  | .error _ => .ok ([], 0)
  | .ok none => .ok ([], 0)
  | .ok (some s) => .ok ([s], 0)

/-! Concrete inputs used by witnesses and counterexamples. -/

/-- A repository where all four extractors have a signal. -/
def oFull : Oracle := fun q =>
  match q with
  | Query.forEachRef =>
    .ok [quoteChar :: "main [ahead 1]".data ++ [quoteChar],
         quoteChar :: "dev".data ++ [quoteChar]]
  | Query.diffShortstat => .ok ["1 file changed, 3 insertions(+)".data]
  | Query.diffCached => .ok ["x | 1 +".data]
  | Query.lsFilesOthers => .ok ["a".data, "b".data]

/-- A repository whose only signal is two untracked files. -/
def oUntrackedTwo : Oracle := fun q =>
  match q with
  | Query.lsFilesOthers => .ok ["a".data, "b".data]
  | _ => .ok []

/-- A repository whose only signal is the canonical shortstat line. -/
def oShortstat : Oracle := fun q =>
  match q with
  | Query.diffShortstat => .ok ["1 file changed, 3 insertions(+)".data]
  | _ => .ok []

/-- An oracle whose first (for-each-ref) query fails with an ExecutionError
while the other three queries would succeed. -/
def oFail : Oracle := fun q =>
  match q with
  | Query.forEachRef => .error "spawn failure"
  | _ => .ok ["x".data]

/-- Three for-each-ref lines: two with tracking tokens, one bare. -/
def oFER : Oracle := fun q =>
  match q with
  | Query.forEachRef =>
    .ok [quoteChar :: "a [ahead 1]".data ++ [quoteChar],
         quoteChar :: "dev".data ++ [quoteChar],
         quoteChar :: "b [behind 2]".data ++ [quoteChar]]
  | _ => .ok []

def pW : GPath := ["repo".data]

def pDeep : GPath := ["home".data, "user".data, "repo".data]

/-- A 25-character directory name. -/
def longName : Str := "abcdefghijklmnopqrstuvwxy".data

/-- The status line produced on `pW` with `oFull`. -/
def sFull : Str :=
  padTo20 ("repo".data) ++ barSep ++
    joinSep commaSep ["main [ahead 1]".data, '1' :: pmSuffix, "Staged 1".data, "2?".data]

/-! Shared lemmas about the embedded operations. -/

theorem isEmpty_iff_nil {α : Type} (l : List α) : l.isEmpty = true ↔ l = [] := by
  cases l <;> simp

theorem splitCharL_ne_nil (c : Char) (s : Str) : splitCharL c s ≠ [] := by
  induction s with
  | nil => simp [splitCharL]
  | cons x xs ih =>
    unfold splitCharL
    by_cases h : x = c
    · simp [h]
    · simp only [if_neg h]
      rcases hs : splitCharL c xs with _ | ⟨hd, tl⟩ <;> simp

theorem qualifying_ne_nil (x : Str)
    (h : ((splitCharL ' ' x).get? 1).isSome = true) : x ≠ [] := by
  intro hx
  subst hx
  exact absurd h (by decide)

theorem concatAll_head_ne (x : Str) (xs : List Str) (hx : x ≠ []) :
    concatAll (x :: xs) ≠ [] := by
  rcases x with _ | ⟨c, cs⟩
  · exact absurd rfl hx
  · simp [concatAll]

theorem joinSep_head (sep x : Str) (rest : List Str) :
    ∃ z, joinSep sep (x :: rest) = x ++ z := by
  cases rest with
  | nil => exact ⟨[], (List.append_nil x).symm⟩
  | cons y r => exact ⟨sep ++ joinSep sep (y :: r), List.append_assoc x sep _⟩

theorem joinSep_ne_nil (sep x : Str) (rest : List Str) (hx : x ≠ []) :
    joinSep sep (x :: rest) ≠ [] := by
  obtain ⟨z, hz⟩ := joinSep_head sep x rest
  rw [hz]
  simp [hx]

theorem padTo20_ne_nil (s : Str) : padTo20 s ≠ [] := by
  unfold padTo20
  rcases s with _ | ⟨c, cs⟩ <;> simp

theorem ahead_behind_some_ne (o : Oracle) (s : Str)
    (h : ahead_behind o = .ok (some s)) : s ≠ [] := by
  unfold ahead_behind at h
  rcases hq : o Query.forEachRef with e | lines
  · simp only [hq] at h
    cases h
  · simp only [hq] at h
    split at h
    · cases h
    · rename_i hne
      cases h
      intro hs
      rw [hs] at hne
      simp at hne

theorem modified_some_ne (o : Oracle) (s : Str)
    (h : modified o = .ok (some s)) : s ≠ [] := by
  unfold modified at h
  rcases hq : o Query.diffShortstat with e | ls
  · simp only [hq] at h
    cases h
  · simp only [hq] at h
    split at h
    · rcases hsplit : splitCharL ' ' (trimStartL (joinSep nlSep ls)) with _ | ⟨num, rest⟩
      · exact absurd hsplit (splitCharL_ne_nil _ _)
      · rw [hsplit] at h
        cases h
        simp [pmSuffix]
    · cases h

theorem status_some_ne (o : Oracle) (s : Str)
    (h : status o = .ok (some s)) : s ≠ [] := by
  unfold status at h
  rcases hq : o Query.diffCached with e | ls
  · simp only [hq] at h
    cases h
  · simp only [hq] at h
    split at h
    · cases h
    · cases h
      simp

theorem untracked_some_ne (o : Oracle) (s : Str)
    (h : untracked o = .ok (some s)) : s ≠ [] := by
  unfold untracked at h
  rcases hq : o Query.lsFilesOthers with e | ls
  · simp only [hq] at h
    cases h
  · simp only [hq] at h
    split at h
    · cases h
    · cases h
      intro hs
      exact absurd (congrArg List.length hs) (by simp)

theorem branchstatRun_all_ok (p : GPath) (o : Oracle) (a b c d : Option Str)
    (ha : ahead_behind o = .ok a) (hb : modified o = .ok b)
    (hc : status o = .ok c) (hd : untracked o = .ok d) :
    branchstatRun p o = (aggregateTail p a b c d, allQueries) := by
  unfold branchstatRun
  rw [ha, hb, hc, hd]

theorem branchstat_all_ok (p : GPath) (o : Oracle) (a b c d : Option Str)
    (ha : ahead_behind o = .ok a) (hb : modified o = .ok b)
    (hc : status o = .ok c) (hd : untracked o = .ok d) :
    branchstat p o = aggregateTail p a b c d := by
  rw [branchstat, branchstatRun_all_ok p o a b c d ha hb hc hd]

theorem filterMap_all_ne (o : Oracle) (a b c d : Option Str)
    (ha : ahead_behind o = .ok a) (hb : modified o = .ok b)
    (hc : status o = .ok c) (hd : untracked o = .ok d) :
    ∀ x ∈ [a, b, c, d].filterMap id, x ≠ [] := by
  intro x hx
  rw [List.mem_filterMap] at hx
  obtain ⟨y, hy, hxy⟩ := hx
  have hyx : y = some x := hxy
  subst hyx
  simp only [List.mem_cons, List.not_mem_nil, or_false] at hy
  rcases hy with h | h | h | h
  · exact ahead_behind_some_ne o x (h ▸ ha)
  · exact modified_some_ne o x (h ▸ hb)
  · exact status_some_ne o x (h ▸ hc)
  · exact untracked_some_ne o x (h ▸ hd)

theorem joined_empty_iff (o : Oracle) (a b c d : Option Str)
    (ha : ahead_behind o = .ok a) (hb : modified o = .ok b)
    (hc : status o = .ok c) (hd : untracked o = .ok d) :
    joinSep commaSep ([a, b, c, d].filterMap id) = [] ↔
      (a = none ∧ b = none ∧ c = none ∧ d = none) := by
  constructor
  · intro hj
    rcases hfm : [a, b, c, d].filterMap id with _ | ⟨x, xs⟩
    · rw [List.filterMap_eq_nil_iff] at hfm
      simp only [List.mem_cons, id] at hfm
      refine ⟨?_, ?_, ?_, ?_⟩ <;> apply hfm <;> simp
    · have hx : x ≠ [] := by
        apply filterMap_all_ne o a b c d ha hb hc hd
        rw [hfm]
        simp
      rw [hfm] at hj
      exact absurd hj (joinSep_ne_nil commaSep x xs hx)
  · rintro ⟨rfl, rfl, rfl, rfl⟩
    rfl

theorem isEmpty_false_of_ne {α : Type} (l : List α) (h : l ≠ []) : l.isEmpty = false := by
  cases l with
  | nil => exact absurd rfl h
  | cons x xs => rfl

theorem aggregateTail_of_nil (p : GPath) (a b c d : Option Str)
    (hj : joinSep commaSep ([a, b, c, d].filterMap id) = []) :
    aggregateTail p a b c d = .ok none := by
  unfold aggregateTail
  split
  · rfl
  · rename_i hemp
    exact absurd (by rw [hj]; rfl) hemp

theorem aggregateTail_of_ne (p : GPath) (name : Str) (a b c d : Option Str)
    (hn : fileName p = some name)
    (hj : joinSep commaSep ([a, b, c, d].filterMap id) ≠ []) :
    aggregateTail p a b c d =
      .ok (some (padTo20 name ++ barSep ++ joinSep commaSep ([a, b, c, d].filterMap id))) := by
  unfold aggregateTail
  split
  · rename_i hemp
    rw [isEmpty_iff_nil] at hemp
    exact absurd hemp hj
  · split
    · rename_i hnone
      rw [hn] at hnone
      cases hnone
    · rename_i name2 hsome
      rw [hn] at hsome
      cases hsome
      rfl

theorem aggregateTail_root (p : GPath) (a b c d : Option Str)
    (hp : fileName p = none)
    (hj : joinSep commaSep ([a, b, c, d].filterMap id) ≠ []) :
    aggregateTail p a b c d = .panicked := by
  unfold aggregateTail
  split
  · rename_i hemp
    rw [isEmpty_iff_nil] at hemp
    exact absurd hemp hj
  · split
    · rfl
    · rename_i name2 hsome
      rw [hp] at hsome
      cases hsome

/-! Claim theorems. -/

/-- Claim C1: whenever `branchstat` returns a status line, the signals in
it are the surviving `Some` values of the four extractors joined at their
original call-order positions [ahead/behind, modified, staged, untracked],
never in any other order. -/
theorem signal_order_fixed (p : GPath) (o : Oracle) (a b c d : Option Str) (s : Str)
    (ha : ahead_behind o = .ok a) (hb : modified o = .ok b)
    (hc : status o = .ok c) (hd : untracked o = .ok d)
    (h : branchstat p o = .ok (some s)) :
    ∃ name, fileName p = some name ∧
      s = padTo20 name ++ barSep ++ joinSep commaSep ([a, b, c, d].filterMap id) := by
  rw [branchstat_all_ok p o a b c d ha hb hc hd] at h
  by_cases hj : joinSep commaSep ([a, b, c, d].filterMap id) = []
  · rw [aggregateTail_of_nil p a b c d hj] at h
    cases h
  · rcases hfn : fileName p with _ | name
    · rw [aggregateTail_root p a b c d hfn hj] at h
      cases h
    · rw [aggregateTail_of_ne p name a b c d hfn hj] at h
      cases h
      exact ⟨name, rfl, rfl⟩

/-- Witness for C1: a concrete repository in which all four extractors have
a signal, and the resulting line carries them in call order. -/
theorem signal_order_fixed_witness :
    ∃ name, fileName pW = some name ∧
      sFull = padTo20 name ++ barSep ++
        joinSep commaSep ([some ("main [ahead 1]".data), some ('1' :: pmSuffix),
          some ("Staged 1".data), some ("2?".data)].filterMap id) :=
  signal_order_fixed pW oFull (some ("main [ahead 1]".data)) (some ('1' :: pmSuffix))
    (some ("Staged 1".data)) (some ("2?".data)) sFull
    (by decide) (by decide) (by decide) (by decide) (by decide)

/-- Claim C2 counterexample: at the root path (no final component) no
extractor fails and `untracked` has a signal, yet `branchstat` does not
return a present result — it panics on the `file_name().unwrap()`. -/
theorem aggregator_root_counterexample :
    ahead_behind oUntrackedTwo = .ok none ∧
    modified oUntrackedTwo = .ok none ∧
    status oUntrackedTwo = .ok none ∧
    untracked oUntrackedTwo = .ok (some ("2?".data)) ∧
    branchstat ([] : GPath) oUntrackedTwo = .panicked := by
  exact ⟨by decide, by decide, by decide, by decide, by decide⟩

/-- Claim C2 (amended): for every repository path WITH a final component on
which no extractor fails, `branchstat` returns `None` iff all four
extractors return `None`; it never returns `Some` of an empty string; and
whenever at least one extractor has a signal the result is present.  (At a
path with no final component the aggregator panics instead of returning.) -/
theorem aggregator_none_iff (p : GPath) (o : Oracle) (name : Str) (a b c d : Option Str)
    (hn : fileName p = some name)
    (ha : ahead_behind o = .ok a) (hb : modified o = .ok b)
    (hc : status o = .ok c) (hd : untracked o = .ok d) :
    (branchstat p o = .ok none ↔ (a = none ∧ b = none ∧ c = none ∧ d = none)) ∧
    (branchstat p o ≠ .ok (some [])) ∧
    ((a.isSome || b.isSome || c.isSome || d.isSome) = true →
      ∃ s, branchstat p o = .ok (some s)) := by
  rw [branchstat_all_ok p o a b c d ha hb hc hd]
  by_cases hj : joinSep commaSep ([a, b, c, d].filterMap id) = []
  · rw [aggregateTail_of_nil p a b c d hj]
    obtain ⟨rfl, rfl, rfl, rfl⟩ := (joined_empty_iff o a b c d ha hb hc hd).1 hj
    refine ⟨by simp, by simp, by simp⟩
  · rw [aggregateTail_of_ne p name a b c d hn hj]
    refine ⟨?_, ?_, fun _ => ⟨_, rfl⟩⟩
    · constructor
      · intro hcontra
        cases hcontra
      · rintro ⟨rfl, rfl, rfl, rfl⟩
        exact absurd rfl hj
    · intro hcontra
      injection hcontra with h1
      injection h1 with h2
      rw [List.append_eq_nil, List.append_eq_nil] at h2
      exact absurd h2.1.1 (padTo20_ne_nil name)

/-- Witness for C2 (amended) at a concrete one-component path. -/
theorem aggregator_none_iff_witness :
    ((branchstat pW oUntrackedTwo = .ok none ↔
      ((none : Option Str) = none ∧ (none : Option Str) = none ∧
       (none : Option Str) = none ∧ some ("2?".data) = none)) ∧
    (branchstat pW oUntrackedTwo ≠ .ok (some [])) ∧
    (((none : Option Str).isSome || (none : Option Str).isSome ||
      (none : Option Str).isSome || (some ("2?".data)).isSome) = true →
      ∃ s, branchstat pW oUntrackedTwo = .ok (some s))) :=
  aggregator_none_iff pW oUntrackedTwo ("repo".data) none none none (some ("2?".data))
    (by decide) (by decide) (by decide) (by decide) (by decide)

/-- Claim C3 counterexample: the label is left-aligned — `format!("{:20}",
..)` pads on the RIGHT with spaces — and a 25-character name is not
truncated to 20; the claimed left padding would put the spaces before the
name. -/
theorem label_alignment_counterexample :
    branchstat (["r".data] : GPath) oUntrackedTwo =
      .ok (some (('r' :: List.replicate 19 ' ') ++ " | 2?".data)) ∧
    ('r' :: List.replicate 19 ' ') ++ " | 2?".data ≠
      (List.replicate 19 ' ' ++ ['r']) ++ " | 2?".data ∧
    branchstat ([longName] : GPath) oUntrackedTwo =
      .ok (some (longName ++ " | 2?".data)) := by
  exact ⟨by decide, by decide, by decide⟩

/-- Claim C3 (amended): every non-empty result is the final path
component's name RIGHT-padded with spaces to a minimum width of 20 (never
truncated), followed by the separator " | ", followed by the non-empty
signals joined with ", "; the label depends only on the final component,
not on the path's depth. -/
theorem label_format (p : GPath) (o : Oracle) (name : Str) (a b c d : Option Str)
    (hn : fileName p = some name)
    (ha : ahead_behind o = .ok a) (hb : modified o = .ok b)
    (hc : status o = .ok c) (hd : untracked o = .ok d)
    (hj : joinSep (", ".data) ([a, b, c, d].filterMap id) ≠ []) :
    branchstat p o =
      .ok (some ((name ++ List.replicate (20 - name.length) ' ') ++ " | ".data ++
        joinSep (", ".data) ([a, b, c, d].filterMap id))) := by
  rw [branchstat_all_ok p o a b c d ha hb hc hd]
  exact aggregateTail_of_ne p name a b c d hn hj

/-- Witness for C3 (amended) at a depth-three path: the label is the final
component only. -/
theorem label_format_witness :
    branchstat pDeep oUntrackedTwo =
      .ok (some ((("repo".data) ++ List.replicate (20 - ("repo".data).length) ' ') ++
        " | ".data ++
        joinSep (", ".data) ([none, none, none, some ("2?".data)].filterMap id))) :=
  label_format pDeep oUntrackedTwo ("repo".data) none none none (some ("2?".data))
    (by decide) (by decide) (by decide) (by decide) (by decide) (by decide)

/-- Claim C4: on the canonical shortstat line "1 file changed, 3
insertions(+)" the Modified extractor returns "1" followed by `pmSuffix`,
which is the two characters U+00C2 U+00B1 (the double-encoded literal at
main.rs line 85) — not the single character U+00B1 the claim's "1±"
requires. -/
theorem modified_shortstat_mojibake :
    modified oShortstat = .ok (some ('1' :: pmSuffix)) ∧
    '1' :: pmSuffix ≠ ['1', Char.ofNat 0xB1] := by
  exact ⟨by decide, by decide⟩

/-- Claim C5: the ahead/behind extractor keeps exactly the lines that,
after stripping surrounding quote characters and trimming, still have a
second space-separated token; it returns `None` when no line qualifies and
otherwise `Some` of the qualifying trimmed lines concatenated with no
separator. -/
theorem ahead_behind_filter (o : Oracle) (lines : List Str)
    (h : o Query.forEachRef = .ok lines) :
    ahead_behind o =
      .ok (if ((lines.map (fun x => trimL (trimMatchesL quoteChar x))).filter
              (fun x => ((splitCharL ' ' x).get? 1).isSome)) = []
        then none
        else some (concatAll ((lines.map (fun x => trimL (trimMatchesL quoteChar x))).filter
              (fun x => ((splitCharL ' ' x).get? 1).isSome)))) := by
  have hstep : ahead_behind o =
      (if (concatAll ((lines.map (fun x => trimL (trimMatchesL quoteChar x))).filter
            (fun x => ((splitCharL ' ' x).get? 1).isSome))).isEmpty
        then .ok none
        else .ok (some (concatAll ((lines.map (fun x => trimL (trimMatchesL quoteChar x))).filter
            (fun x => ((splitCharL ' ' x).get? 1).isSome))))) := by
    unfold ahead_behind
    rw [h]
  rw [hstep]
  rcases hk : (lines.map (fun x => trimL (trimMatchesL quoteChar x))).filter
      (fun x => ((splitCharL ' ' x).get? 1).isSome) with _ | ⟨k, ks⟩
  · simp [concatAll]
  · have hkmem : k ∈ (lines.map (fun x => trimL (trimMatchesL quoteChar x))).filter
        (fun x => ((splitCharL ' ' x).get? 1).isSome) := by
      rw [hk]
      exact List.mem_cons_self k ks
    have hpred : ((splitCharL ' ' k).get? 1).isSome = true := (List.mem_filter.1 hkmem).2
    have hkne : k ≠ [] := qualifying_ne_nil k hpred
    have hcne : concatAll (k :: ks) ≠ [] := concatAll_head_ne k ks hkne
    rw [isEmpty_false_of_ne _ hcne]
    simp

/-- Witness for C5: three for-each-ref lines; the bare one is dropped and
the two qualifying trimmed lines are fused with no separator. -/
theorem ahead_behind_filter_witness :
    ahead_behind oFER = .ok (some ("a [ahead 1]b [behind 2]".data)) := by
  rw [ahead_behind_filter oFER
    [quoteChar :: "a [ahead 1]".data ++ [quoteChar],
     quoteChar :: "dev".data ++ [quoteChar],
     quoteChar :: "b [behind 2]".data ++ [quoteChar]] rfl]
  decide

/-- Claim C6: the probe classifies "not a repository" exactly on exit code
128, in which case the entry point prints "Not a git repo." and exits 1;
any other exit status (other nonzero codes, or none) proceeds with no
output from this step. -/
theorem probe_exit_code_spec (code : Option Int) :
    is_git_repo code = !(decide (code = some 128)) ∧
    entryRepoCheck code = (if code = some 128 then some ("Not a git repo.", 1) else none) := by
  rcases code with _ | n
  · exact ⟨rfl, rfl⟩
  · by_cases h : n = (128 : Int)
    · subst h
      exact ⟨rfl, by simp [entryRepoCheck, is_git_repo]⟩
    · have hrepo : is_git_repo (some n) = true := by
        unfold is_git_repo
        split
        · rename_i heq
          injection heq with hn
          exact absurd hn h
        · rfl
      refine ⟨?_, ?_⟩
      · rw [hrepo]
        simp [h]
      · rw [entryRepoCheck, hrepo]
        simp [h]

/-- Claim C7: every `Err` outcome of `branchstat` is silently discarded by
the entry point: nothing is printed and the process exits 0. -/
theorem extractor_errors_silently_discarded (p : GPath) (o : Oracle) (e : String)
    (h : branchstat p o = .error e) :
    mainReport (branchstat p o) = .ok ([], 0) := by
  rw [h]
  rfl

/-- Witness for C7: a concrete failing backend invocation produces no
output and exit code 0. -/
theorem extractor_errors_silently_discarded_witness :
    branchstat ([] : GPath) oFail = .error "spawn failure" ∧
    mainReport (branchstat ([] : GPath) oFail) = .ok ([], 0) :=
  ⟨rfl, extractor_errors_silently_discarded [] oFail "spawn failure" rfl⟩

/-- Claim C8 counterexample: the four extractor invocations are NOT a
concurrent fan-out.  With an oracle whose first (for-each-ref) query fails
while the other three would succeed, `branchstat` issues only the single
first backend query — the other three extractors are never invoked, because
`vec![ahead_behind(p)?, modified(p)?, status(p)?, untracked(p)?]` evaluates
its elements strictly left to right and `?` short-circuits before the
`par_iter` ever runs. -/
theorem sequential_shortcircuit_counterexample :
    (branchstatRun ([] : GPath) oFail).2 = [Query.forEachRef] ∧
    branchstat ([] : GPath) oFail = .error "spawn failure" ∧
    oFail Query.diffShortstat = .ok ["x".data] ∧
    oFail Query.diffCached = .ok ["x".data] ∧
    oFail Query.lsFilesOthers = .ok ["x".data] :=
  ⟨rfl, rfl, rfl, rfl, rfl⟩

/-- Claim C8 (amended): the backend calls of the four extractors are issued
strictly sequentially in call order (a prefix of [for-each-ref, diff
--shortstat, diff --stat --cached, ls-files], cut short at the first
failure); the parallel iteration in the source only maps over the four
already-computed results (and over the line list inside `ahead_behind`). -/
theorem backend_calls_sequential (p : GPath) (o : Oracle) :
    ∃ n : Nat, 1 ≤ n ∧ n ≤ 4 ∧ (branchstatRun p o).2 = allQueries.take n := by
  unfold branchstatRun
  rcases hA : ahead_behind o with _ | e | a
  · exact ⟨1, by decide, by decide, rfl⟩
  · exact ⟨1, by decide, by decide, rfl⟩
  · rcases hB : modified o with _ | e | b
    · exact ⟨2, by decide, by decide, rfl⟩
    · exact ⟨2, by decide, by decide, rfl⟩
    · rcases hC : status o with _ | e | c
      · exact ⟨3, by decide, by decide, rfl⟩
      · exact ⟨3, by decide, by decide, rfl⟩
      · rcases hD : untracked o with _ | e | d
        · exact ⟨4, by decide, by decide, rfl⟩
        · exact ⟨4, by decide, by decide, rfl⟩
        · exact ⟨4, by decide, by decide, rfl⟩

/-- Claim C9: at a path with no final component (e.g. the filesystem root),
if at least one extractor has a signal, `branchstat` does not return — it
panics unwrapping the absent `file_name`. -/
theorem root_label_unwrap_panics (p : GPath) (o : Oracle) (a b c d : Option Str)
    (hp : fileName p = none)
    (ha : ahead_behind o = .ok a) (hb : modified o = .ok b)
    (hc : status o = .ok c) (hd : untracked o = .ok d)
    (hsig : (a.isSome || b.isSome || c.isSome || d.isSome) = true) :
    branchstat p o = .panicked := by
  rw [branchstat_all_ok p o a b c d ha hb hc hd]
  have hj : joinSep commaSep ([a, b, c, d].filterMap id) ≠ [] := by
    intro hjj
    obtain ⟨rfl, rfl, rfl, rfl⟩ := (joined_empty_iff o a b c d ha hb hc hd).1 hjj
    simp at hsig
  exact aggregateTail_root p a b c d hp hj

/-- Witness for C9 at the root path with one signal. -/
theorem root_label_unwrap_panics_witness :
    branchstat ([] : GPath) oUntrackedTwo = .panicked :=
  root_label_unwrap_panics [] oUntrackedTwo none none none (some ("2?".data))
    (by decide) (by decide) (by decide) (by decide) (by decide) (by decide)

/-- Claim C10: splitting the trim_start-ed text on a space always yields at
least one piece, so position 0 exists and the Modified extractor never
panics on that indexing. -/
theorem modified_index_in_bounds (o : Oracle) (s : Str) :
    modified o ≠ RunRes.panicked ∧ splitCharL ' ' (trimStartL s) ≠ [] := by
  refine ⟨?_, splitCharL_ne_nil ' ' (trimStartL s)⟩
  unfold modified
  split
  · simp
  · split
    · split
      · rename_i hsplit
        exact absurd hsplit (splitCharL_ne_nil _ _)
      · simp
    · simp

end Branchstat
